import Mathlib

/-!
Shallow embedding of the skill-swap marketplace's swap-request lifecycle core:
the SwapRequest route handlers (`src/server/routes/swaps.js`), the SwapRequest
model with its pre-save timestamp hook (`src/server/models/SwapRequest.js`),
the User model's `updateRating` method (`src/server/models/User.js`), and the
admin ban/unban handlers (admin routes file).

Modelling conventions:
- Mongo documents become Lean structures; object ids are `Nat`.
- The store (database) is a pair of lists; `findById`/`findOne` become
  `List.find?`, `updateMany` becomes `List.map` over a condition,
  `findByIdAndDelete` becomes `List.filter`.
- HTTP error responses are abstracted to the spec's error taxonomy: 404 is
  `NotFound`, 403 is `Forbidden`, the express-validator 400 is
  `ValidationError`, the duplicate-open-request 400 is `Conflict`, and the
  remaining handler-level 400s (wrong status, self-request, missing skill,
  cannot-ban-admin, already-banned) are `InvalidOperation`.
- `Date.now()` is an abstract clock value `now : Nat` passed to operations.
- Numbers stored in rating fields are exact rationals (`ℚ`); the JavaScript
  `Math.round(x)` on the nonnegative values occurring here is `⌊x + 1/2⌋`.
- A handler that fails sends an error response without saving anything, so an
  operation returns `Except ApiError Store`: on `.error` the store is
  unchanged by construction.
-/

namespace SkillSwap

/-- `status` enum of `swapRequestSchema`:
`['pending', 'accepted', 'rejected', 'completed', 'cancelled']`. -/
inductive Status where
  | pending
  | accepted
  | rejected
  | completed
  | cancelled
deriving DecidableEq, Repr

/-- The `$in: ['pending', 'accepted']` filter used both by the partial unique
index and by the duplicate-request check in `POST /api/swaps`. -/
def Status.isOpen : Status → Bool
  | .pending => true
  | .accepted => true
  | _ => false

/-- User document (`userSchema`), restricted to the fields the lifecycle core
reads or writes.  Defaults per the schema: `isPublic: true`, `isAdmin: false`,
`isBanned: false`, `rating: 5.0`, `totalRatings: 0`, `ratingSum: 0`. -/
structure User where
  id : Nat
  skillsOffered : List String
  isPublic : Bool
  isAdmin : Bool
  isBanned : Bool
  rating : ℚ
  totalRatings : Nat
  ratingSum : Nat
deriving DecidableEq, Repr

/-- A freshly registered user: schema defaults for all flag/rating fields. -/
def mkUser (id : Nat) (skillsOffered : List String) : User :=
  { id := id
    skillsOffered := skillsOffered
    isPublic := true
    isAdmin := false
    isBanned := false
    rating := 5
    totalRatings := 0
    ratingSum := 0 }

/-- JavaScript `Math.round`: round half toward positive infinity,
`⌊x + 1/2⌋`. On the nonnegative values arising here this coincides with
round-half-away-from-zero. -/
def jsRound (q : ℚ) : ℤ := ⌊q + 1 / 2⌋

/-- `userSchema.methods.updateRating` (`User.js` lines 121–126):
`ratingSum += newRating; totalRatings += 1;
rating = Math.round((ratingSum / totalRatings) * 10) / 10`. -/
def User.updateRating (u : User) (newRating : Nat) : User :=
  let ratingSum := u.ratingSum + newRating
  let totalRatings := u.totalRatings + 1
  { u with
    ratingSum := ratingSum
    totalRatings := totalRatings
    rating := (jsRound ((ratingSum : ℚ) / (totalRatings : ℚ) * 10) : ℚ) / 10 }

/-- SwapRequest document (`swapRequestSchema`).  `rating`, `feedback` and the
three status timestamps are absent (`none`) until set. -/
structure SwapRequest where
  id : Nat
  requester : Nat
  receiver : Nat
  skillOffered : String
  skillWanted : String
  message : Option String
  status : Status
  rating : Option Nat
  feedback : Option String
  acceptedAt : Option Nat
  rejectedAt : Option Nat
  completedAt : Option Nat
deriving DecidableEq, Repr

/-- The persistent store: all User and SwapRequest documents. -/
structure Store where
  users : List User
  swaps : List SwapRequest
deriving DecidableEq, Repr

/-- The spec's error taxonomy, abstracting the HTTP responses (see the header
comment for the mapping). -/
inductive ApiError where
  | NotFound
  | Forbidden
  | InvalidOperation
  | Conflict
  | ValidationError
deriving DecidableEq, Repr

/-- `User.findById`. -/
def Store.findUser (db : Store) (id : Nat) : Option User :=
  db.users.find? (fun u => u.id == id)

/-- `SwapRequest.findById`. -/
def Store.findSwap (db : Store) (id : Nat) : Option SwapRequest :=
  db.swaps.find? (fun r => r.id == id)

/-- `document.save()` on a User: the stored document with this id is replaced
by the in-memory one. -/
def Store.saveUser (db : Store) (u : User) : Store :=
  { db with users := db.users.map (fun x => if x.id == u.id then u else x) }

/-- `document.save()` on a SwapRequest (without the hook; see
`stampOnStatus`). -/
def Store.saveSwap (db : Store) (r : SwapRequest) : Store :=
  { db with swaps := db.swaps.map (fun x => if x.id == r.id then r else x) }

/-- `swapRequestSchema.pre('save')` hook (`SwapRequest.js` lines 81–98), in
the case where `status` was modified (true on every status-changing save the
routes perform): stamp the timestamp matching the new status if unset. -/
def stampOnStatus (r : SwapRequest) (now : Nat) : SwapRequest :=
  match r.status with
  | .accepted => if r.acceptedAt = none then { r with acceptedAt := some now } else r
  | .rejected => if r.rejectedAt = none then { r with rejectedAt := some now } else r
  | .completed => if r.completedAt = none then { r with completedAt := some now } else r
  | _ => r

/-- `POST /api/swaps` (`swaps.js` lines 29–119), after middleware: `reqUser`
is the authenticated `req.user`.  Checks, in source order: receiver exists,
not banned, public (404); not a self-request (400); requester offers
`skillOffered` (400); receiver offers `skillWanted` (400); no open
(pending/accepted) request already exists for the same
(requester, receiver) pair — note: the `findOne` filter does not mention the
skills (400, classified `Conflict`); then inserts a new pending request. -/
def createSwap (db : Store) (reqUser : User) (receiverId : Nat)
    (skillOffered skillWanted : String) (message : Option String)
    (newId : Nat) : Except ApiError Store :=
  match db.findUser receiverId with
  | none => .error .NotFound
  | some receiver =>
    if receiver.isBanned ∨ receiver.isPublic = false then .error .NotFound
    else if reqUser.id = receiverId then .error .InvalidOperation
    else if skillOffered ∉ reqUser.skillsOffered then .error .InvalidOperation
    else if skillWanted ∉ receiver.skillsOffered then .error .InvalidOperation
    else if db.swaps.any (fun r =>
        r.requester == reqUser.id && r.receiver == receiverId && r.status.isOpen) then
      .error .Conflict
    else
      .ok { db with swaps := db.swaps ++
        [{ id := newId
           requester := reqUser.id
           receiver := receiverId
           skillOffered := skillOffered
           skillWanted := skillWanted
           message := message
           status := .pending
           rating := none
           feedback := none
           acceptedAt := none
           rejectedAt := none
           completedAt := none }] }

/-- `PUT /api/swaps/:id/accept` (`swaps.js` lines 268–316): 404 if absent,
403 unless the caller is the receiver, 400 unless pending; then
`status = 'accepted'` and save (running the timestamp hook). -/
def acceptSwap (db : Store) (actingUserId requestId : Nat) (now : Nat) :
    Except ApiError Store :=
  match db.findSwap requestId with
  | none => .error .NotFound
  | some r =>
    if r.receiver ≠ actingUserId then .error .Forbidden
    else if r.status ≠ .pending then .error .InvalidOperation
    else .ok (db.saveSwap (stampOnStatus { r with status := .accepted } now))

/-- `PUT /api/swaps/:id/reject` (`swaps.js` lines 321–369): same shape as
accept, with `status = 'rejected'`. -/
def rejectSwap (db : Store) (actingUserId requestId : Nat) (now : Nat) :
    Except ApiError Store :=
  match db.findSwap requestId with
  | none => .error .NotFound
  | some r =>
    if r.receiver ≠ actingUserId then .error .Forbidden
    else if r.status ≠ .pending then .error .InvalidOperation
    else .ok (db.saveSwap (stampOnStatus { r with status := .rejected } now))

/-- `PUT /api/swaps/:id/complete` (`swaps.js` lines 374–456).  The validator
rejects a non-integer or out-of-range rating (400 `ValidationError`); then
404 if absent, 403 unless the caller is requester or receiver, 400 unless
accepted; then the request is saved as completed with rating/feedback (hook
stamps `completedAt`), and afterwards the *other* party's user document, if
found, gets `updateRating(rating)`; if that user is not found the handler
still responds with success. -/
def completeSwap (db : Store) (actingUserId requestId : Nat) (rating : Nat)
    (feedback : Option String) (now : Nat) : Except ApiError Store :=
  if rating < 1 ∨ 5 < rating then .error .ValidationError
  else
    match db.findSwap requestId with
    | none => .error .NotFound
    | some r =>
      if r.requester ≠ actingUserId ∧ r.receiver ≠ actingUserId then .error .Forbidden
      else if r.status ≠ .accepted then .error .InvalidOperation
      else
        let db1 := db.saveSwap (stampOnStatus
          { r with
            status := .completed
            rating := some rating
            feedback := feedback } now)
        let otherUserId := if r.requester = actingUserId then r.receiver else r.requester
        match db1.findUser otherUserId with
        | some otherUser => .ok (db1.saveUser (otherUser.updateRating rating))
        | none => .ok db1

/-- `DELETE /api/swaps/:id` (`swaps.js` lines 461–505): 404 if absent, 403
unless the caller is the requester, 400 if completed; else
`findByIdAndDelete`. -/
def deleteSwap (db : Store) (actingUserId requestId : Nat) :
    Except ApiError Store :=
  match db.findSwap requestId with
  | none => .error .NotFound
  | some r =>
    if r.requester ≠ actingUserId then .error .Forbidden
    else if r.status = .completed then .error .InvalidOperation
    else .ok { db with swaps := db.swaps.filter (fun x => !(x.id == requestId)) }

/-- `PUT /api/admin/users/:id/ban` (admin routes, lines 211–276): 404 if
absent, 400 for admins and already-banned users; else set
`isBanned = true; isPublic = false`, save, then `updateMany` cancelling every
*pending* request in which the user is requester or receiver.  `updateMany`
writes the status directly, bypassing the pre-save hook. -/
def banUser (db : Store) (userId : Nat) : Except ApiError Store :=
  match db.findUser userId with
  | none => .error .NotFound
  | some u =>
    if u.isAdmin then .error .InvalidOperation
    else if u.isBanned then .error .InvalidOperation
    else
      let db1 := db.saveUser { u with isBanned := true, isPublic := false }
      .ok { db1 with swaps := db1.swaps.map (fun r =>
        if (r.requester = userId ∨ r.receiver = userId) ∧ r.status = .pending
        then { r with status := .cancelled } else r) }

/-- `PUT /api/admin/users/:id/unban` (admin routes, lines 281–327): 404 if
absent, 400 unless banned; else `isBanned = false; isPublic = true`. -/
def unbanUser (db : Store) (userId : Nat) : Except ApiError Store :=
  match db.findUser userId with
  | none => .error .NotFound
  | some u =>
    if u.isBanned = false then .error .InvalidOperation
    else .ok (db.saveUser { u with isBanned := false, isPublic := true })

/-- One lifecycle operation, for statements quantifying over every operation
that can touch the store. -/
inductive Op where
  | create (reqUser : User) (receiverId : Nat) (skillOffered skillWanted : String)
      (message : Option String) (newId : Nat)
  | accept (actingUserId requestId : Nat)
  | reject (actingUserId requestId : Nat)
  | complete (actingUserId requestId rating : Nat) (feedback : Option String)
  | delete (actingUserId requestId : Nat)
  | ban (userId : Nat)
  | unban (userId : Nat)

/-- Dispatch an operation against the store. -/
def applyOp (db : Store) (op : Op) (now : Nat) : Except ApiError Store :=
  match op with
  | .create u rid so sw msg nid => createSwap db u rid so sw msg nid
  | .accept a rid => acceptSwap db a rid now
  | .reject a rid => rejectSwap db a rid now
  | .complete a rid rat fb => completeSwap db a rid rat fb now
  | .delete a rid => deleteSwap db a rid
  | .ban uid => banUser db uid
  | .unban uid => unbanUser db uid

/-- Modelled from the spec: "round-half-away-from-zero to one decimal",
`round(x, 1)`. -/
def specRound1 (q : ℚ) : ℚ :=
  if 0 ≤ q then (⌊10 * q + 1 / 2⌋ : ℚ) / 10
  else -((⌊10 * (-q) + 1 / 2⌋ : ℚ) / 10)

/-- The User rating-state invariant stated in the spec: the average is the
rounded running mean once a rating exists, and the schema default `5.0`
before that. -/
def ratingInvariant (u : User) : Prop :=
  (u.totalRatings = 0 → u.rating = 5) ∧
  (0 < u.totalRatings →
    u.rating = specRound1 ((u.ratingSum : ℚ) / (u.totalRatings : ℚ)))

/-- The transition edges the spec permits for a SwapRequest status. -/
def allowedEdge (a b : Status) : Prop :=
  (a = .pending ∧ (b = .accepted ∨ b = .rejected ∨ b = .cancelled)) ∨
  (a = .accepted ∧ (b = .completed ∨ b = .cancelled))

/-! ### Helper lemmas about lookups in the store -/

lemma swaps_find?_map {f : SwapRequest → SwapRequest}
    (hf : ∀ x, (f x).id = x.id) (l : List SwapRequest) (rid : Nat) :
    (l.map f).find? (fun x => x.id == rid) =
      Option.map f (l.find? (fun x => x.id == rid)) := by
  rw [List.find?_map]
  have hp : ((fun x : SwapRequest => x.id == rid) ∘ f) =
      (fun x : SwapRequest => x.id == rid) := by
    funext x
    simp [Function.comp, hf x]
  rw [hp]

lemma users_find?_map {f : User → User}
    (hf : ∀ x, (f x).id = x.id) (l : List User) (uid : Nat) :
    (l.map f).find? (fun x => x.id == uid) =
      Option.map f (l.find? (fun x => x.id == uid)) := by
  rw [List.find?_map]
  have hp : ((fun x : User => x.id == uid) ∘ f) =
      (fun x : User => x.id == uid) := by
    funext x
    simp [Function.comp, hf x]
  rw [hp]

lemma replaceSwap_id (r' : SwapRequest) :
    ∀ x : SwapRequest, ((if x.id == r'.id then r' else x) : SwapRequest).id = x.id := by
  intro x
  by_cases h : x.id = r'.id
  · simp [h]
  · simp [h]

lemma replaceUser_id (u' : User) :
    ∀ x : User, ((if x.id == u'.id then u' else x) : User).id = x.id := by
  intro x
  by_cases h : x.id = u'.id
  · simp [h]
  · simp [h]

lemma findSwap_saveSwap (db : Store) (r' : SwapRequest) (rid : Nat) :
    (db.saveSwap r').findSwap rid =
      Option.map (fun x => if x.id == r'.id then r' else x) (db.findSwap rid) := by
  unfold Store.saveSwap Store.findSwap
  exact swaps_find?_map (replaceSwap_id r') db.swaps rid

lemma findUser_saveUser (db : Store) (u' : User) (uid : Nat) :
    (db.saveUser u').findUser uid =
      Option.map (fun x => if x.id == u'.id then u' else x) (db.findUser uid) := by
  unfold Store.saveUser Store.findUser
  exact users_find?_map (replaceUser_id u') db.users uid

lemma findSwap_some_id {db : Store} {rid : Nat} {r : SwapRequest}
    (h : db.findSwap rid = some r) : r.id = rid := by
  have := List.find?_some h
  simpa using this

lemma findUser_some_id {db : Store} {uid : Nat} {u : User}
    (h : db.findUser uid = some u) : u.id = uid := by
  have := List.find?_some h
  simpa using this

lemma findSwap_mem {db : Store} {rid : Nat} {r : SwapRequest}
    (h : db.findSwap rid = some r) : r ∈ db.swaps :=
  List.mem_of_find?_eq_some h


/-! ### Success-shape (inversion) lemmas for each operation -/

lemma createSwap_ok {db : Store} {u : User} {rid : Nat} {so sw : String}
    {msg : Option String} {nid : Nat} {db' : Store}
    (h : createSwap db u rid so sw msg nid = .ok db') :
    db'.users = db.users ∧ db'.swaps = db.swaps ++
      [{ id := nid
         requester := u.id
         receiver := rid
         skillOffered := so
         skillWanted := sw
         message := msg
         status := .pending
         rating := none
         feedback := none
         acceptedAt := none
         rejectedAt := none
         completedAt := none }] := by
  unfold createSwap at h
  cases hf : db.findUser rid with
  | none => rw [hf] at h; cases h
  | some receiver =>
    rw [hf] at h
    simp only at h
    split_ifs at h with h1 h2 h3 h4 h5
    constructor
    · first
        | rfl
        | rw [← Except.ok.inj h]
    · first
        | rfl
        | rw [← Except.ok.inj h]

lemma acceptSwap_ok {db : Store} {a rid now : Nat} {db' : Store}
    (h : acceptSwap db a rid now = .ok db') :
    ∃ r, db.findSwap rid = some r ∧ r.receiver = a ∧ r.status = .pending ∧
      db' = db.saveSwap (stampOnStatus { r with status := .accepted } now) := by
  unfold acceptSwap at h
  cases hf : db.findSwap rid with
  | none => rw [hf] at h; cases h
  | some r =>
    rw [hf] at h
    simp only at h
    split_ifs at h with h1 h2
    refine ⟨r, rfl, not_not.mp h1, not_not.mp h2, ?_⟩
    first
      | rfl
      | exact (Except.ok.inj h).symm

lemma rejectSwap_ok {db : Store} {a rid now : Nat} {db' : Store}
    (h : rejectSwap db a rid now = .ok db') :
    ∃ r, db.findSwap rid = some r ∧ r.receiver = a ∧ r.status = .pending ∧
      db' = db.saveSwap (stampOnStatus { r with status := .rejected } now) := by
  unfold rejectSwap at h
  cases hf : db.findSwap rid with
  | none => rw [hf] at h; cases h
  | some r =>
    rw [hf] at h
    simp only at h
    split_ifs at h with h1 h2
    refine ⟨r, rfl, not_not.mp h1, not_not.mp h2, ?_⟩
    first
      | rfl
      | exact (Except.ok.inj h).symm

lemma completeSwap_ok {db : Store} {a rid rating : Nat} {fb : Option String}
    {now : Nat} {db' : Store}
    (h : completeSwap db a rid rating fb now = .ok db') :
    ∃ r, db.findSwap rid = some r ∧ (r.requester = a ∨ r.receiver = a) ∧
      r.status = .accepted ∧
      (db' = db.saveSwap (stampOnStatus
          { r with
            status := .completed
            rating := some rating
            feedback := fb } now) ∨
       ∃ other : User,
        db' = (db.saveSwap (stampOnStatus
          { r with
            status := .completed
            rating := some rating
            feedback := fb } now)).saveUser (other.updateRating rating)) := by
  unfold completeSwap at h
  split_ifs at h with h0
  cases hf : db.findSwap rid with
  | none => rw [hf] at h; cases h
  | some r =>
    rw [hf] at h
    simp only at h
    split_ifs at h with h1 h2 h3
    · refine ⟨r, rfl, ?_, not_not.mp h2, ?_⟩
      · rcases not_and_or.mp h1 with hh | hh
        · exact Or.inl (not_not.mp hh)
        · exact Or.inr (not_not.mp hh)
      · cases ho : (db.saveSwap (stampOnStatus
            { r with
              status := .completed
              rating := some rating
              feedback := fb } now)).findUser r.receiver with
        | none =>
          rw [ho] at h
          simp only at h
          refine Or.inl ?_
          first
            | rfl
            | exact (Except.ok.inj h).symm
        | some other =>
          rw [ho] at h
          simp only at h
          refine Or.inr ⟨other, ?_⟩
          first
            | rfl
            | exact (Except.ok.inj h).symm
    · refine ⟨r, rfl, ?_, not_not.mp h2, ?_⟩
      · rcases not_and_or.mp h1 with hh | hh
        · exact Or.inl (not_not.mp hh)
        · exact Or.inr (not_not.mp hh)
      · cases ho : (db.saveSwap (stampOnStatus
            { r with
              status := .completed
              rating := some rating
              feedback := fb } now)).findUser r.requester with
        | none =>
          rw [ho] at h
          simp only at h
          refine Or.inl ?_
          first
            | rfl
            | exact (Except.ok.inj h).symm
        | some other =>
          rw [ho] at h
          simp only at h
          refine Or.inr ⟨other, ?_⟩
          first
            | rfl
            | exact (Except.ok.inj h).symm

lemma deleteSwap_ok {db : Store} {a rid : Nat} {db' : Store}
    (h : deleteSwap db a rid = .ok db') :
    db'.users = db.users ∧
      db'.swaps = db.swaps.filter (fun x => !(x.id == rid)) := by
  unfold deleteSwap at h
  cases hf : db.findSwap rid with
  | none => rw [hf] at h; cases h
  | some r =>
    rw [hf] at h
    simp only at h
    split_ifs at h with h1 h2
    constructor
    · first
        | rfl
        | rw [← Except.ok.inj h]
    · first
        | rfl
        | rw [← Except.ok.inj h]

lemma banUser_ok {db : Store} {uid : Nat} {db' : Store}
    (h : banUser db uid = .ok db') :
    ∃ u, db.findUser uid = some u ∧ u.isAdmin = false ∧ u.isBanned = false ∧
      db'.users = (db.saveUser { u with isBanned := true, isPublic := false }).users ∧
      db'.swaps = db.swaps.map (fun r =>
        if (r.requester = uid ∨ r.receiver = uid) ∧ r.status = .pending
        then { r with status := .cancelled } else r) := by
  unfold banUser at h
  cases hf : db.findUser uid with
  | none => rw [hf] at h; cases h
  | some u =>
    rw [hf] at h
    simp only at h
    split_ifs at h with h1 h2
    refine ⟨u, rfl, by simpa using h1, by simpa using h2, ?_, ?_⟩
    · first
        | rfl
        | ((rw [← Except.ok.inj h]) <;> rfl)
    · first
        | rfl
        | ((rw [← Except.ok.inj h]) <;> rfl)

lemma unbanUser_ok {db : Store} {uid : Nat} {db' : Store}
    (h : unbanUser db uid = .ok db') :
    ∃ u, db.findUser uid = some u ∧ u.isBanned = true ∧
      db' = db.saveUser { u with isBanned := false, isPublic := true } := by
  unfold unbanUser at h
  cases hf : db.findUser uid with
  | none => rw [hf] at h; cases h
  | some u =>
    rw [hf] at h
    simp only at h
    split_ifs at h with h1
    refine ⟨u, rfl, by simpa using h1, ?_⟩
    first
      | rfl
      | exact (Except.ok.inj h).symm

/-! ### Field lemmas for the timestamp hook and store saves -/

lemma findSwap_saveUser (db : Store) (u : User) (rid : Nat) :
    (db.saveUser u).findSwap rid = db.findSwap rid := rfl

lemma findUser_saveSwap (db : Store) (r : SwapRequest) (uid : Nat) :
    (db.saveSwap r).findUser uid = db.findUser uid := rfl

lemma stampOnStatus_id (r : SwapRequest) (now : Nat) :
    (stampOnStatus r now).id = r.id := by
  obtain ⟨i, rq, rv, so, sw, m, st, ra, fb, aa, rj, ca⟩ := r
  cases st <;> simp only [stampOnStatus] <;>
    first
      | rfl
      | (split_ifs <;> rfl)

lemma stampOnStatus_status (r : SwapRequest) (now : Nat) :
    (stampOnStatus r now).status = r.status := by
  obtain ⟨i, rq, rv, so, sw, m, st, ra, fb, aa, rj, ca⟩ := r
  cases st <;> simp only [stampOnStatus] <;>
    first
      | rfl
      | (split_ifs <;> rfl)

lemma stampOnStatus_requester (r : SwapRequest) (now : Nat) :
    (stampOnStatus r now).requester = r.requester := by
  obtain ⟨i, rq, rv, so, sw, m, st, ra, fb, aa, rj, ca⟩ := r
  cases st <;> simp only [stampOnStatus] <;>
    first
      | rfl
      | (split_ifs <;> rfl)

lemma stampOnStatus_receiver (r : SwapRequest) (now : Nat) :
    (stampOnStatus r now).receiver = r.receiver := by
  obtain ⟨i, rq, rv, so, sw, m, st, ra, fb, aa, rj, ca⟩ := r
  cases st <;> simp only [stampOnStatus] <;>
    first
      | rfl
      | (split_ifs <;> rfl)

lemma stampOnStatus_rating (r : SwapRequest) (now : Nat) :
    (stampOnStatus r now).rating = r.rating := by
  obtain ⟨i, rq, rv, so, sw, m, st, ra, fb, aa, rj, ca⟩ := r
  cases st <;> simp only [stampOnStatus] <;>
    first
      | rfl
      | (split_ifs <;> rfl)

lemma stampOnStatus_feedback (r : SwapRequest) (now : Nat) :
    (stampOnStatus r now).feedback = r.feedback := by
  obtain ⟨i, rq, rv, so, sw, m, st, ra, fb, aa, rj, ca⟩ := r
  cases st <;> simp only [stampOnStatus] <;>
    first
      | rfl
      | (split_ifs <;> rfl)

lemma stampOnStatus_acceptedAt_some {r : SwapRequest} {t : Nat} (now : Nat)
    (h : r.acceptedAt = some t) : (stampOnStatus r now).acceptedAt = some t := by
  obtain ⟨i, rq, rv, so, sw, m, st, ra, fb, aa, rj, ca⟩ := r
  simp only at h
  subst h
  cases st <;> simp only [stampOnStatus] <;>
    first
      | rfl
      | (split_ifs with hh <;>
          first
            | rfl
            | (cases hh))

lemma stampOnStatus_rejectedAt_some {r : SwapRequest} {t : Nat} (now : Nat)
    (h : r.rejectedAt = some t) : (stampOnStatus r now).rejectedAt = some t := by
  obtain ⟨i, rq, rv, so, sw, m, st, ra, fb, aa, rj, ca⟩ := r
  simp only at h
  subst h
  cases st <;> simp only [stampOnStatus] <;>
    first
      | rfl
      | (split_ifs with hh <;>
          first
            | rfl
            | (cases hh))

lemma stampOnStatus_completedAt_some {r : SwapRequest} {t : Nat} (now : Nat)
    (h : r.completedAt = some t) : (stampOnStatus r now).completedAt = some t := by
  obtain ⟨i, rq, rv, so, sw, m, st, ra, fb, aa, rj, ca⟩ := r
  simp only at h
  subst h
  cases st <;> simp only [stampOnStatus] <;>
    first
      | rfl
      | (split_ifs with hh <;>
          first
            | rfl
            | (cases hh))

/-! ### Bridging the Bool-level duplicate check to a logical statement -/

lemma isOpen_iff {st : Status} :
    st.isOpen = true ↔ st = .pending ∨ st = .accepted := by
  cases st <;> simp [Status.isOpen]

lemma dup_any_iff (db : Store) (reqId rid : Nat) :
    (db.swaps.any (fun r =>
        r.requester == reqId && r.receiver == rid && r.status.isOpen) = true) ↔
      ∃ r ∈ db.swaps, r.requester = reqId ∧ r.receiver = rid ∧
        (r.status = .pending ∨ r.status = .accepted) := by
  rw [List.any_eq_true]
  constructor
  · rintro ⟨r, hr, hb⟩
    simp only [Bool.and_eq_true, beq_iff_eq] at hb
    exact ⟨r, hr, hb.1.1, hb.1.2, isOpen_iff.mp hb.2⟩
  · rintro ⟨r, hr, h1, h2, h3⟩
    refine ⟨r, hr, ?_⟩
    simp only [Bool.and_eq_true, beq_iff_eq]
    exact ⟨⟨h1, h2⟩, isOpen_iff.mpr h3⟩

/-! ### Rating arithmetic -/

lemma updateRating_ratingSum (u : User) (n : Nat) :
    (u.updateRating n).ratingSum = u.ratingSum + n := rfl

lemma updateRating_totalRatings (u : User) (n : Nat) :
    (u.updateRating n).totalRatings = u.totalRatings + 1 := rfl

lemma updateRating_id (u : User) (n : Nat) :
    (u.updateRating n).id = u.id := rfl

lemma updateRating_rating (u : User) (n : Nat) :
    (u.updateRating n).rating =
      specRound1 (((u.ratingSum + n : Nat) : ℚ) / ((u.totalRatings + 1 : Nat) : ℚ)) := by
  unfold User.updateRating specRound1 jsRound
  simp only
  have hq : (0 : ℚ) ≤ ((u.ratingSum + n : Nat) : ℚ) / ((u.totalRatings + 1 : Nat) : ℚ) := by
    positivity
  rw [if_pos hq]
  rw [mul_comm (((u.ratingSum + n : Nat) : ℚ) / ((u.totalRatings + 1 : Nat) : ℚ)) 10]

lemma ratingInvariant_updateRating (u : User) (n : Nat) :
    ratingInvariant (u.updateRating n) := by
  constructor
  · intro h
    rw [updateRating_totalRatings] at h
    exact absurd h (Nat.succ_ne_zero _)
  · intro _
    rw [updateRating_rating, updateRating_ratingSum, updateRating_totalRatings]

lemma ratingInvariant_mkUser (id : Nat) (skills : List String) :
    ratingInvariant (mkUser id skills) := by
  constructor
  · intro _
    rfl
  · intro h
    exact absurd h (by simp [mkUser])

lemma ratingInvariant_saveUser {db : Store} {unew : User}
    (hall : ∀ u ∈ db.users, ratingInvariant u) (hnew : ratingInvariant unew) :
    ∀ u ∈ (db.saveUser unew).users, ratingInvariant u := by
  intro u hu
  rcases List.mem_map.mp hu with ⟨x, hx, rfl⟩
  split_ifs
  · exact hnew
  · exact hall x hx

/-! ### Shape of any one successful step, as seen by one request id -/

lemma step_shape {db : Store} {op : Op} {now : Nat} {db' : Store} {rid : Nat}
    {r r' : SwapRequest}
    (hstep : applyOp db op now = .ok db')
    (hr : db.findSwap rid = some r) (hr' : db'.findSwap rid = some r') :
    r' = r ∨
    (r.status = .pending ∧ r' = stampOnStatus { r with status := .accepted } now) ∨
    (r.status = .pending ∧ r' = stampOnStatus { r with status := .rejected } now) ∨
    (∃ rat fb, r.status = .accepted ∧ r' = stampOnStatus
      { r with status := .completed, rating := some rat, feedback := fb } now) ∨
    (r.status = .pending ∧ r' = { r with status := .cancelled }) := by
  cases op with
  | create u crid so sw msg nid =>
    obtain ⟨_, hs⟩ := createSwap_ok hstep
    left
    unfold Store.findSwap at hr hr'
    rw [hs, List.find?_append, hr, Option.or_some] at hr'
    exact (Option.some.inj hr').symm
  | accept a arid =>
    obtain ⟨r0, hr0, hrecv, hpend, hdb⟩ := acceptSwap_ok hstep
    subst hdb
    rw [findSwap_saveSwap, hr, Option.map_some'] at hr'
    have hfr := Option.some.inj hr'
    by_cases hid : r.id = (stampOnStatus { r0 with status := .accepted } now).id
    · rw [if_pos (by simpa using hid)] at hfr
      have hid0 : r.id = r0.id := by
        rw [hid, stampOnStatus_id]
      have hrids : rid = arid := by
        rw [← findSwap_some_id hr, ← findSwap_some_id hr0, hid0]
      rw [← hrids] at hr0
      rw [hr] at hr0
      have : r = r0 := Option.some.inj hr0
      subst this
      exact Or.inr (Or.inl ⟨hpend, hfr.symm⟩)
    · rw [if_neg (by simpa using hid)] at hfr
      exact Or.inl hfr.symm
  | reject a arid =>
    obtain ⟨r0, hr0, hrecv, hpend, hdb⟩ := rejectSwap_ok hstep
    subst hdb
    rw [findSwap_saveSwap, hr, Option.map_some'] at hr'
    have hfr := Option.some.inj hr'
    by_cases hid : r.id = (stampOnStatus { r0 with status := .rejected } now).id
    · rw [if_pos (by simpa using hid)] at hfr
      have hid0 : r.id = r0.id := by
        rw [hid, stampOnStatus_id]
      have hrids : rid = arid := by
        rw [← findSwap_some_id hr, ← findSwap_some_id hr0, hid0]
      rw [← hrids] at hr0
      rw [hr] at hr0
      have : r = r0 := Option.some.inj hr0
      subst this
      exact Or.inr (Or.inr (Or.inl ⟨hpend, hfr.symm⟩))
    · rw [if_neg (by simpa using hid)] at hfr
      exact Or.inl hfr.symm
  | complete a arid rat fb =>
    obtain ⟨r0, hr0, hparty, hacc, hdb⟩ := completeSwap_ok hstep
    have hswaps : db'.findSwap rid =
        (db.saveSwap (stampOnStatus
          { r0 with status := .completed, rating := some rat, feedback := fb }
          now)).findSwap rid := by
      rcases hdb with hdb | ⟨other, hdb⟩
      · rw [hdb]
      · rw [hdb, findSwap_saveUser]
    rw [hswaps, findSwap_saveSwap, hr, Option.map_some'] at hr'
    have hfr := Option.some.inj hr'
    by_cases hid : r.id = (stampOnStatus
        { r0 with status := .completed, rating := some rat, feedback := fb } now).id
    · rw [if_pos (by simpa using hid)] at hfr
      have hid0 : r.id = r0.id := by
        rw [hid, stampOnStatus_id]
      have hrids : rid = arid := by
        rw [← findSwap_some_id hr, ← findSwap_some_id hr0, hid0]
      rw [← hrids] at hr0
      rw [hr] at hr0
      have : r = r0 := Option.some.inj hr0
      subst this
      exact Or.inr (Or.inr (Or.inr (Or.inl ⟨rat, fb, hacc, hfr.symm⟩)))
    · rw [if_neg (by simpa using hid)] at hfr
      exact Or.inl hfr.symm
  | delete a drid =>
    obtain ⟨_, hs⟩ := deleteSwap_ok hstep
    left
    unfold Store.findSwap at hr hr'
    rw [hs, List.find?_filter] at hr'
    by_cases hrd : rid = drid
    · exfalso
      subst hrd
      have := List.find?_some hr'
      simp at this
    · have hpred : (fun x : SwapRequest =>
          decide ((!(x.id == drid)) = true ∧ (x.id == rid) = true)) =
          (fun x : SwapRequest => x.id == rid) := by
        funext x
        by_cases hx : x.id = rid
        · simp [hx]
          omega
        · simp [hx]
      rw [hpred, hr] at hr'
      exact (Option.some.inj hr').symm
  | ban uid =>
    obtain ⟨u0, hu0, hadm, hban, husers, hswaps⟩ := banUser_ok hstep
    have hfid : ∀ x : SwapRequest,
        ((if (x.requester = uid ∨ x.receiver = uid) ∧ x.status = .pending
          then { x with status := Status.cancelled } else x) : SwapRequest).id = x.id := by
      intro x
      split_ifs <;> rfl
    unfold Store.findSwap at hr hr'
    rw [hswaps, swaps_find?_map hfid, hr, Option.map_some'] at hr'
    have hfr := Option.some.inj hr'
    by_cases hc : (r.requester = uid ∨ r.receiver = uid) ∧ r.status = .pending
    · rw [if_pos hc] at hfr
      exact Or.inr (Or.inr (Or.inr (Or.inr ⟨hc.2, hfr.symm⟩)))
    · rw [if_neg hc] at hfr
      exact Or.inl hfr.symm
  | unban uid =>
    obtain ⟨u0, hu0, hban, hdb⟩ := unbanUser_ok hstep
    subst hdb
    rw [findSwap_saveUser, hr] at hr'
    exact Or.inl (Option.some.inj hr').symm

/-! ### Concrete fixtures used by counterexamples and witnesses -/

/-- User A: offers skills "X" and "X2". -/
def exA : User :=
  { id := 1
    skillsOffered := ["X", "X2"]
    isPublic := true
    isAdmin := false
    isBanned := false
    rating := 5
    totalRatings := 0
    ratingSum := 0 }

/-- User B: offers skills "Y" and "Y2"; has two prior ratings summing to 8. -/
def exB : User :=
  { id := 2
    skillsOffered := ["Y", "Y2"]
    isPublic := true
    isAdmin := false
    isBanned := false
    rating := 4
    totalRatings := 2
    ratingSum := 8 }

/-- A private (non-public), non-admin, non-banned user. -/
def exC : User :=
  { id := 3
    skillsOffered := []
    isPublic := false
    isAdmin := false
    isBanned := false
    rating := 5
    totalRatings := 0
    ratingSum := 0 }

/-- A pending request from A to B for skills ("X", "Y"). -/
def exSwapPending : SwapRequest :=
  { id := 10
    requester := 1
    receiver := 2
    skillOffered := "X"
    skillWanted := "Y"
    message := none
    status := .pending
    rating := none
    feedback := none
    acceptedAt := none
    rejectedAt := none
    completedAt := none }

/-- An accepted request from A to B for skills ("X", "Y"). -/
def exSwapAccepted : SwapRequest :=
  { id := 11
    requester := 1
    receiver := 2
    skillOffered := "X"
    skillWanted := "Y"
    message := none
    status := .accepted
    rating := none
    feedback := none
    acceptedAt := some 50
    rejectedAt := none
    completedAt := none }

/-- Store with users A, B and the open (pending) A→B request. -/
def exDb : Store := { users := [exA, exB], swaps := [exSwapPending] }

/-- Store with users A, B and the accepted A→B request. -/
def exDbAcc : Store := { users := [exA, exB], swaps := [exSwapAccepted] }

/-- Store holding the accepted A→B request but missing B's user document. -/
def exDbMissing : Store := { users := [exA], swaps := [exSwapAccepted] }

/-- Store with the private user C only. -/
def exDbC : Store := { users := [exC], swaps := [] }


/-! ### Forward (success/failure) computation lemmas -/

lemma stampOnStatus_acceptedAt_stamp {r : SwapRequest} (now : Nat)
    (hst : r.status = .accepted) (h : r.acceptedAt = none) :
    (stampOnStatus r now).acceptedAt = some now := by
  unfold stampOnStatus
  rw [hst]
  simp only
  rw [if_pos h]

lemma stampOnStatus_rejectedAt_stamp {r : SwapRequest} (now : Nat)
    (hst : r.status = .rejected) (h : r.rejectedAt = none) :
    (stampOnStatus r now).rejectedAt = some now := by
  unfold stampOnStatus
  rw [hst]
  simp only
  rw [if_pos h]

lemma stampOnStatus_completedAt_stamp {r : SwapRequest} (now : Nat)
    (hst : r.status = .completed) (h : r.completedAt = none) :
    (stampOnStatus r now).completedAt = some now := by
  unfold stampOnStatus
  rw [hst]
  simp only
  rw [if_pos h]

lemma createSwap_conflict_of {db : Store} {u : User} {rid : Nat} {so sw : String}
    {msg : Option String} {nid : Nat} {receiver : User}
    (hf : db.findUser rid = some receiver)
    (hb : receiver.isBanned = false) (hp : receiver.isPublic = true)
    (hself : u.id ≠ rid) (hso : so ∈ u.skillsOffered)
    (hsw : sw ∈ receiver.skillsOffered)
    (hdup : ∃ r ∈ db.swaps, r.requester = u.id ∧ r.receiver = rid ∧
      (r.status = .pending ∨ r.status = .accepted)) :
    createSwap db u rid so sw msg nid = .error .Conflict := by
  unfold createSwap
  rw [hf]
  simp only
  rw [if_neg (by simp [hb, hp])]
  rw [if_neg hself]
  rw [if_neg (by simp [hso])]
  rw [if_neg (by simp [hsw])]
  rw [if_pos ((dup_any_iff db u.id rid).mpr hdup)]

lemma createSwap_ok_of {db : Store} {u : User} {rid : Nat} {so sw : String}
    {msg : Option String} {nid : Nat} {receiver : User}
    (hf : db.findUser rid = some receiver)
    (hb : receiver.isBanned = false) (hp : receiver.isPublic = true)
    (hself : u.id ≠ rid) (hso : so ∈ u.skillsOffered)
    (hsw : sw ∈ receiver.skillsOffered)
    (hdup : ∀ r ∈ db.swaps, ¬(r.requester = u.id ∧ r.receiver = rid ∧
      (r.status = .pending ∨ r.status = .accepted))) :
    createSwap db u rid so sw msg nid = .ok { db with swaps := db.swaps ++
      [{ id := nid
         requester := u.id
         receiver := rid
         skillOffered := so
         skillWanted := sw
         message := msg
         status := .pending
         rating := none
         feedback := none
         acceptedAt := none
         rejectedAt := none
         completedAt := none }] } := by
  unfold createSwap
  rw [hf]
  simp only
  rw [if_neg (by simp [hb, hp])]
  rw [if_neg hself]
  rw [if_neg (by simp [hso])]
  rw [if_neg (by simp [hsw])]
  rw [if_neg (fun hc => by
    rcases (dup_any_iff db u.id rid).mp hc with ⟨r, hr, h1, h2, h3⟩
    exact hdup r hr ⟨h1, h2, h3⟩)]

lemma banUser_succeeds {db : Store} {uid : Nat} {u : User}
    (hf : db.findUser uid = some u) (hadm : u.isAdmin = false)
    (hban : u.isBanned = false) :
    ∃ db', banUser db uid = .ok db' := by
  unfold banUser
  rw [hf]
  simp only
  rw [if_neg (by simp [hadm]), if_neg (by simp [hban])]
  exact ⟨_, rfl⟩


/-! ### Claims -/

/-- C5: every User record satisfies the rating invariant — `rating` equals
`round(ratingSum / totalRatings, 1)` (half away from zero, one decimal)
whenever `totalRatings > 0`, and equals the default `5.0` when
`totalRatings = 0`.  It holds of a freshly registered user, `updateRating`
(the only mutator of rating state) unconditionally re-establishes it, and
every lifecycle operation preserves it for every stored user. -/
theorem C5_rating_invariant :
    (∀ (u : User) (n : Nat), ratingInvariant (u.updateRating n)) ∧
    (∀ (id : Nat) (skills : List String), ratingInvariant (mkUser id skills)) ∧
    (∀ (db : Store) (op : Op) (now : Nat) (db' : Store),
      applyOp db op now = .ok db' →
      (∀ u ∈ db.users, ratingInvariant u) →
      (∀ u ∈ db'.users, ratingInvariant u)) := by
  refine ⟨ratingInvariant_updateRating, ratingInvariant_mkUser, ?_⟩
  intro db op now db' hstep hall
  cases op with
  | create u crid so sw msg nid =>
    obtain ⟨hu, _⟩ := createSwap_ok hstep
    rw [hu]
    exact hall
  | accept a arid =>
    obtain ⟨r0, _, _, _, hdb⟩ := acceptSwap_ok hstep
    subst hdb
    exact hall
  | reject a arid =>
    obtain ⟨r0, _, _, _, hdb⟩ := rejectSwap_ok hstep
    subst hdb
    exact hall
  | complete a arid rat fb =>
    obtain ⟨r0, _, _, _, hdb⟩ := completeSwap_ok hstep
    rcases hdb with hdb | ⟨other, hdb⟩
    · subst hdb
      exact hall
    · subst hdb
      exact ratingInvariant_saveUser hall (ratingInvariant_updateRating other rat)
  | delete a drid =>
    rw [(deleteSwap_ok hstep).1]
    exact hall
  | ban uid =>
    obtain ⟨u0, hu0, _, _, husers, _⟩ := banUser_ok hstep
    intro u hu
    rw [husers] at hu
    exact ratingInvariant_saveUser hall
      (show ratingInvariant { u0 with isBanned := true, isPublic := false } from
        hall u0 (List.mem_of_find?_eq_some hu0)) u hu
  | unban uid =>
    obtain ⟨u0, hu0, _, hdb⟩ := unbanUser_ok hstep
    subst hdb
    exact ratingInvariant_saveUser hall
      (show ratingInvariant { u0 with isBanned := false, isPublic := true } from
        hall u0 (List.mem_of_find?_eq_some hu0))

/-- Witness for C5 at concrete inputs. -/
theorem C5_rating_invariant_witness :
    ratingInvariant (exB.updateRating 5) ∧ ratingInvariant (mkUser 7 ["Z"]) :=
  ⟨C5_rating_invariant.1 exB 5, C5_rating_invariant.2.1 7 ["Z"]⟩

/-- C6: Complete on an existing request whose status is pending, rejected,
or completed, called by a party of the request with an in-range rating, fails
with InvalidOperation; the handler returns before any write, so under the
`Except`-style embedding the store — hence the request record with all its
fields and timestamps — is unchanged. -/
theorem C6_complete_wrong_status {db : Store} {actingId rid rating : Nat}
    {fb : Option String} {now : Nat} {r : SwapRequest}
    (hrate : 1 ≤ rating ∧ rating ≤ 5)
    (hf : db.findSwap rid = some r)
    (hparty : r.requester = actingId ∨ r.receiver = actingId)
    (hst : r.status = .pending ∨ r.status = .rejected ∨ r.status = .completed) :
    completeSwap db actingId rid rating fb now = .error .InvalidOperation := by
  unfold completeSwap
  rw [if_neg (by omega)]
  rw [hf]
  simp only
  rw [if_neg (by rcases hparty with h | h <;> simp [h])]
  rw [if_pos (by rcases hst with h | h | h <;> simp [h])]

/-- Witness for C6: completing the pending A→B request fails. -/
theorem C6_complete_wrong_status_witness :
    completeSwap exDb 1 10 5 none 100 = .error .InvalidOperation :=
  C6_complete_wrong_status (by decide) rfl (Or.inl rfl) (Or.inl rfl)


/-- C4: banning a non-admin, not-yet-banned user succeeds and cancels, in
bulk and regardless of per-request authorization, exactly the *pending*
requests in which that user is requester or receiver; every request not
matching that filter (any other status, or not involving the user) is kept
unchanged; and afterwards the receiver's Accept on a cascade-cancelled
request fails with InvalidOperation. -/
theorem C4_ban_cascade {db : Store} {uid : Nat} {u : User}
    (hf : db.findUser uid = some u) (hadm : u.isAdmin = false)
    (hban : u.isBanned = false) :
    ∃ db', banUser db uid = .ok db' ∧
      (∀ r ∈ db.swaps, (r.requester = uid ∨ r.receiver = uid) →
        r.status = .pending →
        ({ r with status := Status.cancelled } : SwapRequest) ∈ db'.swaps) ∧
      (∀ r ∈ db.swaps, ¬((r.requester = uid ∨ r.receiver = uid) ∧
          r.status = .pending) → r ∈ db'.swaps) ∧
      (∀ (rid now : Nat) (r' : SwapRequest), db'.findSwap rid = some r' →
        r'.status = .cancelled →
        acceptSwap db' r'.receiver rid now = .error .InvalidOperation) := by
  obtain ⟨db', hb⟩ := banUser_succeeds hf hadm hban
  obtain ⟨u0, hu0, _, _, _, hswaps⟩ := banUser_ok hb
  refine ⟨db', hb, ?_, ?_, ?_⟩
  · intro r hr hinv hpend
    rw [hswaps]
    have hfr : (fun r : SwapRequest =>
        if (r.requester = uid ∨ r.receiver = uid) ∧ r.status = .pending
        then { r with status := Status.cancelled } else r) r =
        { r with status := Status.cancelled } := if_pos ⟨hinv, hpend⟩
    rw [← hfr]
    exact List.mem_map_of_mem _ hr
  · intro r hr hnot
    rw [hswaps]
    have hfr : (fun r : SwapRequest =>
        if (r.requester = uid ∨ r.receiver = uid) ∧ r.status = .pending
        then { r with status := Status.cancelled } else r) r = r := if_neg hnot
    rw [← hfr]
    exact List.mem_map_of_mem _ hr
  · intro rid now r' hfind hcanc
    unfold acceptSwap
    rw [hfind]
    simp only
    rw [if_neg (by simp)]
    rw [if_pos (by simp [hcanc])]

/-- Witness for C4: banning A cancels the pending A→B request, and B can no
longer accept it. -/
theorem C4_ban_cascade_witness :
    ∃ db', banUser exDb 1 = .ok db' ∧
      (∀ r ∈ exDb.swaps, (r.requester = 1 ∨ r.receiver = 1) →
        r.status = .pending →
        ({ r with status := Status.cancelled } : SwapRequest) ∈ db'.swaps) ∧
      (∀ r ∈ exDb.swaps, ¬((r.requester = 1 ∨ r.receiver = 1) ∧
          r.status = .pending) → r ∈ db'.swaps) ∧
      (∀ (rid now : Nat) (r' : SwapRequest), db'.findSwap rid = some r' →
        r'.status = .cancelled →
        acceptSwap db' r'.receiver rid now = .error .InvalidOperation) :=
  C4_ban_cascade (u := exA) rfl rfl rfl

/-- C10: Ban sets `isBanned := true` and also forces `isPublic := false`;
Unban sets `isBanned := false` and unconditionally `isPublic := true`.
Hence a ban-then-unban round trip always leaves the user public, even when
`isPublic` was false before the ban. -/
theorem C10_ban_unban_public {db : Store} {uid : Nat} {u : User}
    (hf : db.findUser uid = some u) (hadm : u.isAdmin = false)
    (hban : u.isBanned = false) :
    ∃ db1, banUser db uid = .ok db1 ∧
      (∃ u1, db1.findUser uid = some u1 ∧ u1.isBanned = true ∧
        u1.isPublic = false) ∧
      ∃ db2, unbanUser db1 uid = .ok db2 ∧
        ∃ u2, db2.findUser uid = some u2 ∧ u2.isBanned = false ∧
          u2.isPublic = true := by
  obtain ⟨db1, hb⟩ := banUser_succeeds hf hadm hban
  obtain ⟨u0, hu0, _, _, husers, _⟩ := banUser_ok hb
  have hu0u : u0 = u := by
    rw [hf] at hu0
    exact (Option.some.inj hu0).symm
  subst hu0u
  have hfind1 : db1.findUser uid =
      some { u0 with isBanned := true, isPublic := false } := by
    have h1 : db1.findUser uid =
        (db.saveUser { u0 with isBanned := true, isPublic := false }).findUser uid := by
      unfold Store.findUser
      rw [husers]
    rw [h1, findUser_saveUser, hf, Option.map_some']
    rw [if_pos (by simp)]
  refine ⟨db1, hb, ⟨_, hfind1, rfl, rfl⟩, ?_⟩
  have hunban : unbanUser db1 uid = .ok (db1.saveUser
      { { u0 with isBanned := true, isPublic := false } with
        isBanned := false, isPublic := true }) := by
    unfold unbanUser
    rw [hfind1]
    simp only
    rw [if_neg (by simp)]
  refine ⟨_, hunban, ?_⟩
  have hfind2 : (db1.saveUser
      { { u0 with isBanned := true, isPublic := false } with
        isBanned := false, isPublic := true }).findUser uid =
      some { { u0 with isBanned := true, isPublic := false } with
        isBanned := false, isPublic := true } := by
    rw [findUser_saveUser, hfind1, Option.map_some']
    rw [if_pos (by simp)]
  exact ⟨_, hfind2, rfl, rfl⟩

/-- Witness for C10 at the private user C: before the ban `isPublic` is
false, after the ban/unban round trip it is true. -/
theorem C10_ban_unban_public_witness :
    exC.isPublic = false ∧
    (∃ db1, banUser exDbC 3 = .ok db1 ∧
      (∃ u1, db1.findUser 3 = some u1 ∧ u1.isBanned = true ∧
        u1.isPublic = false) ∧
      ∃ db2, unbanUser db1 3 = .ok db2 ∧
        ∃ u2, db2.findUser 3 = some u2 ∧ u2.isBanned = false ∧
          u2.isPublic = true) :=
  ⟨rfl, C10_ban_unban_public (u := exC) rfl rfl rfl⟩


/-- C7: a second Accept on an already-accepted request by the receiver fails
with InvalidOperation (nothing is saved, so `acceptedAt` is not re-stamped);
across every lifecycle operation a status timestamp that is set is never
changed; and Accept from pending stamps `acceptedAt` (the first time the
status is reached). -/
theorem C7_accept_idempotence_timestamps :
    (∀ (db : Store) (a rid now : Nat) (r : SwapRequest),
      db.findSwap rid = some r → r.receiver = a → r.status = .accepted →
      acceptSwap db a rid now = .error .InvalidOperation) ∧
    (∀ (db : Store) (op : Op) (now : Nat) (db' : Store) (rid : Nat)
      (r r' : SwapRequest),
      applyOp db op now = .ok db' → db.findSwap rid = some r →
      db'.findSwap rid = some r' →
      (∀ t, r.acceptedAt = some t → r'.acceptedAt = some t) ∧
      (∀ t, r.rejectedAt = some t → r'.rejectedAt = some t) ∧
      (∀ t, r.completedAt = some t → r'.completedAt = some t)) ∧
    (∀ (db : Store) (rid now : Nat) (r : SwapRequest),
      db.findSwap rid = some r → r.status = .pending → r.acceptedAt = none →
      ∃ db', acceptSwap db r.receiver rid now = .ok db' ∧
        ∃ r', db'.findSwap rid = some r' ∧ r'.acceptedAt = some now) ∧
    (∀ (db : Store) (rid now : Nat) (r : SwapRequest),
      db.findSwap rid = some r → r.status = .pending → r.rejectedAt = none →
      ∃ db', rejectSwap db r.receiver rid now = .ok db' ∧
        ∃ r', db'.findSwap rid = some r' ∧ r'.rejectedAt = some now) := by
  refine ⟨?_, ?_, ?_, ?_⟩
  · intro db a rid now r hf hrecv hacc
    unfold acceptSwap
    rw [hf]
    simp only
    rw [if_neg (by simp [hrecv])]
    rw [if_pos (by simp [hacc])]
  · intro db op now db' rid r r' hstep hr hr'
    rcases step_shape hstep hr hr' with h | ⟨_, h⟩ | ⟨_, h⟩ | ⟨rat, fb, _, h⟩ | ⟨_, h⟩
    · subst h
      exact ⟨fun t ht => ht, fun t ht => ht, fun t ht => ht⟩
    · subst h
      exact ⟨fun t ht => stampOnStatus_acceptedAt_some now ht,
        fun t ht => stampOnStatus_rejectedAt_some now ht,
        fun t ht => stampOnStatus_completedAt_some now ht⟩
    · subst h
      exact ⟨fun t ht => stampOnStatus_acceptedAt_some now ht,
        fun t ht => stampOnStatus_rejectedAt_some now ht,
        fun t ht => stampOnStatus_completedAt_some now ht⟩
    · subst h
      exact ⟨fun t ht => stampOnStatus_acceptedAt_some now ht,
        fun t ht => stampOnStatus_rejectedAt_some now ht,
        fun t ht => stampOnStatus_completedAt_some now ht⟩
    · subst h
      exact ⟨fun t ht => ht, fun t ht => ht, fun t ht => ht⟩
  · intro db rid now r hf hpend haccAt
    have hok : acceptSwap db r.receiver rid now =
        .ok (db.saveSwap (stampOnStatus { r with status := .accepted } now)) := by
      unfold acceptSwap
      rw [hf]
      simp only
      rw [if_neg (by simp)]
      rw [if_neg (by simp [hpend])]
    refine ⟨_, hok, ?_⟩
    have hfind : (db.saveSwap
        (stampOnStatus { r with status := .accepted } now)).findSwap rid =
        some (stampOnStatus { r with status := .accepted } now) := by
      rw [findSwap_saveSwap, hf, Option.map_some']
      rw [if_pos (by rw [stampOnStatus_id]; simp [findSwap_some_id hf])]
    refine ⟨_, hfind, ?_⟩
    exact stampOnStatus_acceptedAt_stamp now rfl haccAt
  · intro db rid now r hf hpend hrejAt
    have hok : rejectSwap db r.receiver rid now =
        .ok (db.saveSwap (stampOnStatus { r with status := .rejected } now)) := by
      unfold rejectSwap
      rw [hf]
      simp only
      rw [if_neg (by simp)]
      rw [if_neg (by simp [hpend])]
    refine ⟨_, hok, ?_⟩
    have hfind : (db.saveSwap
        (stampOnStatus { r with status := .rejected } now)).findSwap rid =
        some (stampOnStatus { r with status := .rejected } now) := by
      rw [findSwap_saveSwap, hf, Option.map_some']
      rw [if_pos (by rw [stampOnStatus_id]; simp [findSwap_some_id hf])]
    refine ⟨_, hfind, ?_⟩
    exact stampOnStatus_rejectedAt_stamp now rfl hrejAt

/-- Witness for C7: a second Accept on the already-accepted A→B request
fails with InvalidOperation. -/
theorem C7_accept_idempotence_timestamps_witness :
    acceptSwap exDbAcc 2 11 60 = .error .InvalidOperation :=
  C7_accept_idempotence_timestamps.1 exDbAcc 2 11 60 exSwapAccepted rfl rfl rfl

/-- C9: every status change performed by any lifecycle operation (Create,
Accept, Reject, Complete, Delete/Cancel, cascade-cancel on Ban, Unban)
follows one of the allowed edges pending→accepted, pending→rejected,
pending→cancelled, accepted→completed, accepted→cancelled; in particular no
operation moves a status out of rejected, completed or cancelled, skips a
state, or reverses an edge. -/
theorem C9_status_edges :
    ∀ (db : Store) (op : Op) (now : Nat) (db' : Store) (rid : Nat)
      (r r' : SwapRequest),
      applyOp db op now = .ok db' → db.findSwap rid = some r →
      db'.findSwap rid = some r' →
      r'.status = r.status ∨ allowedEdge r.status r'.status := by
  intro db op now db' rid r r' hstep hr hr'
  rcases step_shape hstep hr hr' with h | ⟨hp, h⟩ | ⟨hp, h⟩ | ⟨rat, fb, hp, h⟩ | ⟨hp, h⟩
  · left
    rw [h]
  · right
    exact Or.inl ⟨hp, Or.inl (by rw [h, stampOnStatus_status])⟩
  · right
    exact Or.inl ⟨hp, Or.inr (Or.inl (by rw [h, stampOnStatus_status]))⟩
  · right
    exact Or.inr ⟨hp, Or.inl (by rw [h, stampOnStatus_status])⟩
  · right
    exact Or.inl ⟨hp, Or.inr (Or.inr (by rw [h]))⟩

/-- The pending A→B request after acceptance at time 60. -/
def exSwapAfterAccept : SwapRequest :=
  { exSwapPending with status := .accepted, acceptedAt := some 60 }

/-- The store after B accepts the pending A→B request at time 60. -/
def exDbAfterAccept : Store :=
  { users := [exA, exB]
    swaps := [exSwapAfterAccept] }

/-- Witness for C9: B accepting the pending A→B request moves its status
along the edge pending→accepted. -/
theorem C9_status_edges_witness :
    exSwapAfterAccept.status = exSwapPending.status ∨
      allowedEdge exSwapPending.status exSwapAfterAccept.status :=
  C9_status_edges exDb (.accept 2 10) 60 exDbAfterAccept 10 exSwapPending
    exSwapAfterAccept rfl rfl rfl


/-- C2: a successful Complete by a party of an accepted request (the
counterpart user being present in the store) marks the request completed,
stamps `completedAt`, stores the supplied rating and feedback on the request,
and updates exactly the *other* party's user rating state:
`ratingSum += rating`, `totalRatings += 1`,
`rating = round(ratingSum/totalRatings, 1)`; the acting party's own user
document is unchanged. -/
theorem C2_complete_effects {db : Store} {actingId rid rating : Nat}
    {fb : Option String} {now : Nat} {r : SwapRequest} {other : User}
    (hrate : 1 ≤ rating ∧ rating ≤ 5)
    (hf : db.findSwap rid = some r)
    (hparty : r.requester = actingId ∨ r.receiver = actingId)
    (hne : r.requester ≠ r.receiver)
    (hacc : r.status = .accepted)
    (hca : r.completedAt = none)
    (hother : db.findUser
      (if r.requester = actingId then r.receiver else r.requester) = some other) :
    ∃ db', completeSwap db actingId rid rating fb now = .ok db' ∧
      (∃ r', db'.findSwap rid = some r' ∧ r'.status = .completed ∧
        r'.rating = some rating ∧ r'.feedback = fb ∧ r'.completedAt = some now) ∧
      (∃ other', db'.findUser
          (if r.requester = actingId then r.receiver else r.requester) =
            some other' ∧
        other'.ratingSum = other.ratingSum + rating ∧
        other'.totalRatings = other.totalRatings + 1 ∧
        other'.rating = specRound1 (((other.ratingSum + rating : Nat) : ℚ) /
          ((other.totalRatings + 1 : Nat) : ℚ))) ∧
      db'.findUser actingId = db.findUser actingId := by
  have hcomp : completeSwap db actingId rid rating fb now =
      .ok ((db.saveSwap (stampOnStatus { r with status := .completed, rating := some rating, feedback := fb } now)).saveUser
        (other.updateRating rating)) := by
    unfold completeSwap
    rw [if_neg (by omega)]
    rw [hf]
    simp only
    rw [if_neg (by rcases hparty with h | h <;> simp [h])]
    rw [if_neg (by simp [hacc])]
    have hother2 : (db.saveSwap (stampOnStatus { r with status := .completed, rating := some rating, feedback := fb } now)).findUser
        (if r.requester = actingId then r.receiver else r.requester) =
        some other := hother
    rw [hother2]
  refine ⟨_, hcomp, ?_, ?_, ?_⟩
  · have hfind : ((db.saveSwap (stampOnStatus { r with status := .completed, rating := some rating, feedback := fb } now)).saveUser
        (other.updateRating rating)).findSwap rid =
        some (stampOnStatus { r with status := .completed, rating := some rating, feedback := fb } now) := by
      rw [findSwap_saveUser, findSwap_saveSwap, hf, Option.map_some']
      rw [if_pos (by simp [stampOnStatus_id])]
    refine ⟨_, hfind, ?_, ?_, ?_, ?_⟩
    · rw [stampOnStatus_status]
    · rw [stampOnStatus_rating]
    · rw [stampOnStatus_feedback]
    · exact stampOnStatus_completedAt_stamp now rfl hca
  · have hfindo : ((db.saveSwap (stampOnStatus { r with status := .completed, rating := some rating, feedback := fb } now)).saveUser
        (other.updateRating rating)).findUser
        (if r.requester = actingId then r.receiver else r.requester) =
        some (other.updateRating rating) := by
      rw [findUser_saveUser]
      have h1 : (db.saveSwap (stampOnStatus { r with status := .completed, rating := some rating, feedback := fb } now)).findUser
          (if r.requester = actingId then r.receiver else r.requester) =
          some other := hother
      rw [h1, Option.map_some']
      rw [if_pos (by simp [updateRating_id])]
    exact ⟨_, hfindo, updateRating_ratingSum other rating,
      updateRating_totalRatings other rating, updateRating_rating other rating⟩
  · have hne2 : (if r.requester = actingId then r.receiver else r.requester) ≠
        actingId := by
      split_ifs with hreq
      · intro hc
        exact hne (hreq.trans hc.symm)
      · exact hreq
    have hoid : other.id =
        (if r.requester = actingId then r.receiver else r.requester) :=
      findUser_some_id hother
    rw [findUser_saveUser]
    have h1 : (db.saveSwap (stampOnStatus { r with status := .completed, rating := some rating, feedback := fb } now)).findUser
        actingId = db.findUser actingId := rfl
    rw [h1]
    cases hax : db.findUser actingId with
    | none => rfl
    | some x =>
      rw [Option.map_some']
      have hxid : x.id ≠ (other.updateRating rating).id := by
        rw [findUser_some_id hax, updateRating_id, hoid]
        exact fun hc => hne2 hc.symm
      rw [if_neg (by simpa using hxid)]

/-- Witness for C2: A completes the accepted A→B swap with rating 5; B's
rating state becomes sum 13, count 3, average round(13/3, 1) = 4.3. -/
theorem C2_complete_effects_witness :
    ∃ db', completeSwap exDbAcc 1 11 5 none 100 = .ok db' ∧
      (∃ r', db'.findSwap 11 = some r' ∧ r'.status = .completed ∧
        r'.rating = some 5 ∧ r'.feedback = none ∧ r'.completedAt = some 100) ∧
      (∃ other', db'.findUser
          (if exSwapAccepted.requester = 1 then exSwapAccepted.receiver
           else exSwapAccepted.requester) = some other' ∧
        other'.ratingSum = exB.ratingSum + 5 ∧
        other'.totalRatings = exB.totalRatings + 1 ∧
        other'.rating = specRound1 (((exB.ratingSum + 5 : Nat) : ℚ) /
          ((exB.totalRatings + 1 : Nat) : ℚ))) ∧
      db'.findUser 1 = exDbAcc.findUser 1 :=
  C2_complete_effects (by decide)
    (show exDbAcc.findSwap 11 = some exSwapAccepted from rfl)
    (Or.inl rfl) (by decide) rfl rfl
    (show exDbAcc.findUser
      (if exSwapAccepted.requester = 1 then exSwapAccepted.receiver
       else exSwapAccepted.requester) = some exB from rfl)


/-- C3 counterexample: the store `exDbMissing` holds the accepted A→B request
but no user document for B (id 2, the counterpart when A completes).  The
claim says Complete must abort; the code instead saves the request as
completed first and then silently skips the rating update when the
counterpart user is not found (`if (otherUser)`), responding with success.
Concretely, Complete returns `.ok` with the request marked completed and the
user list unchanged — no rating applied to any user. -/
theorem C3_counterexample :
    exDbMissing.findSwap 11 = some exSwapAccepted ∧
    exSwapAccepted.status = .accepted ∧
    exSwapAccepted.requester = 1 ∧
    exDbMissing.findUser 2 = none ∧
    completeSwap exDbMissing 1 11 5 none 100 =
      .ok { users := [exA]
            swaps := [{ exSwapAccepted with status := .completed, rating := some 5, feedback := none, completedAt := some 100 }] } :=
  ⟨rfl, rfl, rfl, rfl, rfl⟩

/-- C3 amended: when the request exists, the caller is a party, the status is
accepted and the rating is in range, but the counterpart user is *not* found
in the store, Complete does not abort: it succeeds, the request is marked
completed (with the rating stored on it), and no user document changes — the
rating is silently dropped. -/
theorem C3_complete_missing_counterpart {db : Store} {actingId rid rating : Nat}
    {fb : Option String} {now : Nat} {r : SwapRequest}
    (hrate : 1 ≤ rating ∧ rating ≤ 5)
    (hf : db.findSwap rid = some r)
    (hparty : r.requester = actingId ∨ r.receiver = actingId)
    (hacc : r.status = .accepted)
    (hother : db.findUser
      (if r.requester = actingId then r.receiver else r.requester) = none) :
    ∃ db', completeSwap db actingId rid rating fb now = .ok db' ∧
      db'.users = db.users ∧
      ∃ r', db'.findSwap rid = some r' ∧ r'.status = .completed ∧
        r'.rating = some rating := by
  have hcomp : completeSwap db actingId rid rating fb now =
      .ok (db.saveSwap (stampOnStatus { r with status := .completed, rating := some rating, feedback := fb } now)) := by
    unfold completeSwap
    rw [if_neg (by omega)]
    rw [hf]
    simp only
    rw [if_neg (by rcases hparty with h | h <;> simp [h])]
    rw [if_neg (by simp [hacc])]
    have hother2 : (db.saveSwap (stampOnStatus { r with status := .completed, rating := some rating, feedback := fb } now)).findUser
        (if r.requester = actingId then r.receiver else r.requester) =
        none := hother
    rw [hother2]
  refine ⟨_, hcomp, rfl, ?_⟩
  have hfind : (db.saveSwap (stampOnStatus { r with status := .completed, rating := some rating, feedback := fb } now)).findSwap rid =
      some (stampOnStatus { r with status := .completed, rating := some rating, feedback := fb } now) := by
    rw [findSwap_saveSwap, hf, Option.map_some']
    rw [if_pos (by simp [stampOnStatus_id])]
  refine ⟨_, hfind, ?_, ?_⟩
  · rw [stampOnStatus_status]
  · rw [stampOnStatus_rating]

/-- Witness for the amended C3 at the concrete store missing B's document. -/
theorem C3_complete_missing_counterpart_witness :
    ∃ db', completeSwap exDbMissing 1 11 5 none 100 = .ok db' ∧
      db'.users = exDbMissing.users ∧
      ∃ r', db'.findSwap 11 = some r' ∧ r'.status = .completed ∧
        r'.rating = some 5 :=
  C3_complete_missing_counterpart (by decide)
    (show exDbMissing.findSwap 11 = some exSwapAccepted from rfl)
    (Or.inl rfl) rfl
    (show exDbMissing.findUser
      (if exSwapAccepted.requester = 1 then exSwapAccepted.receiver
       else exSwapAccepted.requester) = none from rfl)


/-- C1 counterexample: the store `exDb` holds an open (pending) request
(A, B, "X", "Y").  A then creates a request to B with the *different* skill
tuple ("X2", "Y2"); every other Create precondition holds and no open request
with that exact 4-tuple exists, yet Create fails with Conflict — the route's
duplicate check filters only on (requester, receiver, open status), not on
the skills, so the claim's "different skillOffered/skillWanted succeeds" is
false on the code. -/
theorem C1_counterexample :
    exDb.findUser 2 = some exB ∧ exB.isBanned = false ∧ exB.isPublic = true ∧
    exA.id ≠ 2 ∧ "X2" ∈ exA.skillsOffered ∧ "Y2" ∈ exB.skillsOffered ∧
    (∀ r ∈ exDb.swaps, ¬(r.requester = 1 ∧ r.receiver = 2 ∧
      r.skillOffered = "X2" ∧ r.skillWanted = "Y2" ∧
      (r.status = .pending ∨ r.status = .accepted))) ∧
    createSwap exDb exA 2 "X2" "Y2" none 99 = .error .Conflict :=
  ⟨rfl, rfl, rfl, by decide, by decide, by decide, by decide, rfl⟩

/-- C1 amended: the open-request uniqueness enforced by Create is scoped to
the ordered (requester, receiver) *pair*, not the 4-tuple: while any open
(pending or accepted) request exists from the requester to the receiver, a
second Create to that receiver fails with Conflict regardless of the skill
tuple; when no open request exists between the pair (in particular after the
first request reaches completed, rejected, or cancelled) and the other
preconditions hold, an identical Create succeeds. -/
theorem C1_duplicate_scope {db : Store} {u : User} {rid : Nat} {so sw : String}
    {msg : Option String} {nid : Nat} {receiver : User}
    (hf : db.findUser rid = some receiver)
    (hb : receiver.isBanned = false) (hp : receiver.isPublic = true)
    (hself : u.id ≠ rid) (hso : so ∈ u.skillsOffered)
    (hsw : sw ∈ receiver.skillsOffered) :
    ((∃ r ∈ db.swaps, r.requester = u.id ∧ r.receiver = rid ∧
        (r.status = .pending ∨ r.status = .accepted)) →
      createSwap db u rid so sw msg nid = .error .Conflict) ∧
    ((∀ r ∈ db.swaps, ¬(r.requester = u.id ∧ r.receiver = rid ∧
        (r.status = .pending ∨ r.status = .accepted))) →
      ∃ db', createSwap db u rid so sw msg nid = .ok db') := by
  constructor
  · intro hdup
    exact createSwap_conflict_of hf hb hp hself hso hsw hdup
  · intro hnodup
    exact ⟨_, createSwap_ok_of hf hb hp hself hso hsw hnodup⟩

/-- Witness for the amended C1: with the open ("X","Y") request in place, the
same-pair Create with skills ("X","Y2") fails with Conflict; in the store
where that request is completed, the identical Create succeeds. -/
theorem C1_duplicate_scope_witness :
    (createSwap exDb exA 2 "X" "Y2" none 99 = .error .Conflict) ∧
    ∃ db', createSwap
      { users := [exA, exB]
        swaps := [{ exSwapPending with status := Status.completed }] }
      exA 2 "X" "Y" none 99 = .ok db' :=
  ⟨(C1_duplicate_scope (show exDb.findUser 2 = some exB from rfl) rfl rfl
      (by decide) (by decide) (by decide)).1 ⟨exSwapPending, by decide⟩,
    (C1_duplicate_scope
      (show ({ users := [exA, exB]
               swaps := [{ exSwapPending with status := Status.completed }] } :
          Store).findUser 2 = some exB from rfl) rfl rfl
      (by decide) (by decide) (by decide)).2 (by decide)⟩

/-- C8 counterexample: the claim's duplicate precondition is 4-tuple-scoped
(its spec source reads "no existing open request ... with the same skill
tuple"), so on the store `exDb` — which holds only the open (A, B, "X", "Y")
request — a Create by A to B with skills ("X2", "Y") satisfies every stated
precondition: receiver exists, is public and not banned, no self-request,
A offers "X2", B offers "Y", and no open request with the 4-tuple
(A, B, "X2", "Y") exists.  The claim's success clause then requires a new
pending SwapRequest to be inserted; instead Create fails with Conflict,
because the route's duplicate check matches on the (requester, receiver)
pair alone. -/
theorem C8_counterexample :
    exDb.findUser 2 = some exB ∧ exB.isBanned = false ∧ exB.isPublic = true ∧
    exA.id ≠ 2 ∧ "X2" ∈ exA.skillsOffered ∧ "Y" ∈ exB.skillsOffered ∧
    (∀ r ∈ exDb.swaps, ¬(r.requester = 1 ∧ r.receiver = 2 ∧
      r.skillOffered = "X2" ∧ r.skillWanted = "Y" ∧
      (r.status = .pending ∨ r.status = .accepted))) ∧
    createSwap exDb exA 2 "X2" "Y" none 98 = .error .Conflict :=
  ⟨rfl, rfl, rfl, by decide, by decide, by decide, by decide, rfl⟩

/-- C8 amended: Create's preconditions are checked in the stated order with
the first failure winning: receiver exists, not banned, and public (else
NotFound); no self-request (else InvalidOperation); requester offers
`skillOffered` (else InvalidOperation); receiver offers `skillWanted` (else
InvalidOperation); no open duplicate (else Conflict) — where, as forced by
the counterexample, "open duplicate" means an open (pending or accepted)
request between the same ordered (requester, receiver) pair with *any*
skill tuple, not the claim's exact 4-tuple; when all hold, a new pending
SwapRequest is inserted.  Each failure conjunct constrains only the earlier
checks, so the first failing check determines the error. -/
theorem C8_create_precondition_order :
    ∀ (db : Store) (u : User) (rid : Nat) (so sw : String) (msg : Option String)
      (nid : Nat),
    (db.findUser rid = none →
      createSwap db u rid so sw msg nid = .error .NotFound) ∧
    (∀ receiver, db.findUser rid = some receiver →
      (receiver.isBanned = true ∨ receiver.isPublic = false) →
      createSwap db u rid so sw msg nid = .error .NotFound) ∧
    (∀ receiver, db.findUser rid = some receiver →
      receiver.isBanned = false → receiver.isPublic = true → u.id = rid →
      createSwap db u rid so sw msg nid = .error .InvalidOperation) ∧
    (∀ receiver, db.findUser rid = some receiver →
      receiver.isBanned = false → receiver.isPublic = true → u.id ≠ rid →
      so ∉ u.skillsOffered →
      createSwap db u rid so sw msg nid = .error .InvalidOperation) ∧
    (∀ receiver, db.findUser rid = some receiver →
      receiver.isBanned = false → receiver.isPublic = true → u.id ≠ rid →
      so ∈ u.skillsOffered → sw ∉ receiver.skillsOffered →
      createSwap db u rid so sw msg nid = .error .InvalidOperation) ∧
    (∀ receiver, db.findUser rid = some receiver →
      receiver.isBanned = false → receiver.isPublic = true → u.id ≠ rid →
      so ∈ u.skillsOffered → sw ∈ receiver.skillsOffered →
      (∃ r ∈ db.swaps, r.requester = u.id ∧ r.receiver = rid ∧
        (r.status = .pending ∨ r.status = .accepted)) →
      createSwap db u rid so sw msg nid = .error .Conflict) ∧
    (∀ receiver, db.findUser rid = some receiver →
      receiver.isBanned = false → receiver.isPublic = true → u.id ≠ rid →
      so ∈ u.skillsOffered → sw ∈ receiver.skillsOffered →
      (∀ r ∈ db.swaps, ¬(r.requester = u.id ∧ r.receiver = rid ∧
        (r.status = .pending ∨ r.status = .accepted))) →
      createSwap db u rid so sw msg nid = .ok { db with swaps := db.swaps ++
        [{ id := nid
           requester := u.id
           receiver := rid
           skillOffered := so
           skillWanted := sw
           message := msg
           status := .pending
           rating := none
           feedback := none
           acceptedAt := none
           rejectedAt := none
           completedAt := none }] }) := by
  intro db u rid so sw msg nid
  refine ⟨?_, ?_, ?_, ?_, ?_, ?_, ?_⟩
  · intro hnone
    unfold createSwap
    rw [hnone]
  · intro receiver hf hbp
    unfold createSwap
    rw [hf]
    simp only
    rw [if_pos (by rcases hbp with h | h <;> simp [h])]
  · intro receiver hf hb hp hself
    unfold createSwap
    rw [hf]
    simp only
    rw [if_neg (by simp [hb, hp])]
    rw [if_pos hself]
  · intro receiver hf hb hp hself hso
    unfold createSwap
    rw [hf]
    simp only
    rw [if_neg (by simp [hb, hp])]
    rw [if_neg hself]
    rw [if_pos hso]
  · intro receiver hf hb hp hself hso hsw
    unfold createSwap
    rw [hf]
    simp only
    rw [if_neg (by simp [hb, hp])]
    rw [if_neg hself]
    rw [if_neg (by simp [hso])]
    rw [if_pos hsw]
  · intro receiver hf hb hp hself hso hsw hdup
    exact createSwap_conflict_of hf hb hp hself hso hsw hdup
  · intro receiver hf hb hp hself hso hsw hnodup
    exact createSwap_ok_of hf hb hp hself hso hsw hnodup

/-- Witness for C8, exercising the first-failure-wins conjuncts at concrete
stores: a Create to an absent receiver is NotFound even though other checks
would also fail; a self-request is InvalidOperation even though the skill
checks would also fail; a Create by A to B with skills ("X","Y") hits the
duplicate check. -/
theorem C8_create_precondition_order_witness :
    createSwap exDb exA 7 "nope" "nope" none 99 = .error .NotFound ∧
    createSwap exDb exB 2 "nope" "nope" none 99 = .error .InvalidOperation ∧
    createSwap exDb exA 2 "X" "Y" none 99 = .error .Conflict :=
  ⟨(C8_create_precondition_order exDb exA 7 "nope" "nope" none 99).1 rfl,
    (C8_create_precondition_order exDb exB 2 "nope" "nope" none 99).2.2.1
      exB rfl rfl rfl rfl,
    (C8_create_precondition_order exDb exA 2 "X" "Y" none 99).2.2.2.2.2.1
      exB rfl rfl rfl (by decide) (by decide) (by decide)
      ⟨exSwapPending, by decide⟩⟩

end SkillSwap
